import Mathlib

/-!
Verification of the Expense_Manager repository's specification against its two
backend implementations:
* the SQL/Express variant (`server/index.js`, MySQL schema), and
* the Supabase edge-function variant (`supabase/functions/server/index.tsx`,
  key-value store).

Each server handler that the audited claims touch is shallowly embedded as an
executable Lean function over explicit state (lists standing for SQL tables or
key-value collections).  Machine details that the handlers never observe
(connection pooling, JSON wire format, bcrypt internals, JWT signing) are
abstracted as parameters; everything the handlers branch on is modelled.
-/

/- ===== Generic string helpers (JS `String.prototype.split(' ')` and SQL
  `LIKE '%s%'` substring matching, over character lists) ===== -/

/-- `leadSeg pat l` is true when `pat` is a leading segment of `l`. -/
def leadSeg (pat l : List Char) : Bool :=
  match pat, l with
  | [], _ => true
  | _ :: _, [] => false
  | p :: ps, x :: xs => p == x && leadSeg ps xs

/-- `hasSeg pat l` is true when `pat` occurs contiguously inside `l`. -/
def hasSeg (pat l : List Char) : Bool :=
  match l with
  | [] => pat.isEmpty
  | _ :: xs => leadSeg pat l || hasSeg pat xs

/-- Substring test: models SQL `col LIKE '%pat%'`. -/
def strContains (s pat : String) : Bool := hasSeg pat.toList s.toList

/-- Split a character list at every occurrence of `c` (JS `split`). -/
def splitOnChar (c : Char) : List Char → List (List Char)
  | [] => [[]]
  | x :: xs =>
    let r := splitOnChar c xs
    if x == c then [] :: r
    else
      match r with
      | [] => [[x]]
      | g :: gs => (x :: g) :: gs

/-- JS `s.split(' ')`. -/
def splitWords (s : String) : List String :=
  (splitOnChar ' ' s.toList).map (fun cs => String.mk cs)

/- ===== JSON objects (JS object literals), used by the key-value backend ===== -/

/-- A JSON scalar value as the edge-function handlers store them. -/
inductive JVal where
  | str (s : String)
  | num (q : ℚ)
  | jnull
deriving DecidableEq

/-- A JS object: an association list of fields; the first binding of a key is
its value (later list entries are shadowed). -/
abbrev Obj := List (String × JVal)

/-- Field access `o.k` / `o?.k`. -/
def objGet (o : Obj) (k : String) : Option JVal :=
  (o.find? (fun p => p.1 == k)).map (fun p => p.2)

/-- The JS spread merge `{...e, ...u}`: fields of `u` win over fields of `e`. -/
def objMergeJs (e u : Obj) : Obj :=
  u ++ e.filter (fun p => !(u.any (fun q => q.1 == p.1)))

/-- The JS literal `{...o, k: v}` restricted to one extra field: `k` is forced
to `v`, all other fields of `o` are kept. -/
def objSet (o : Obj) (k : String) (v : JVal) : Obj :=
  (k, v) :: o.filter (fun p => !(p.1 == k))

/- ===== Edge-function variant: key-value store =====
The store keeps JSON blobs under keys `user:<id>`, `category:<id>`,
`subcategory:<id>`, `project:<id>`, `expense:<id>`, `income:<id>`.  Since the
key namespaces are disjoint, the store is modelled as one list per namespace,
keyed by the `<id>` part; `kv.getByPrefix 'expense:'` is then the list of
expense values, and `kv.get`/`kv.set`/`kv.del` act on one list. -/

/-- One key-value collection (all entries of one key namespace). -/
abbrev KvColl := List (String × Obj)

/-- `kv.get` within a namespace. -/
def collGet (l : KvColl) (k : String) : Option Obj :=
  (l.find? (fun p => p.1 == k)).map (fun p => p.2)

/-- `kv.set` within a namespace (upsert). -/
def collSet (l : KvColl) (k : String) (v : Obj) : KvColl :=
  (k, v) :: l.filter (fun p => !(p.1 == k))

/-- `kv.del` within a namespace. -/
def collDel (l : KvColl) (k : String) : KvColl :=
  l.filter (fun p => !(p.1 == k))

/-- The whole key-value store of the edge-function backend. -/
structure EdgeKV where
  users : KvColl
  categories : KvColl
  subcategories : KvColl
  projects : KvColl
  expenses : KvColl
  incomes : KvColl
deriving DecidableEq

/-- The caller's stored profile role: `(await kv.get(`user:<id>`))?.role`. -/
def edgeUserRole (st : EdgeKV) (uid : String) : Option JVal :=
  (collGet st.users uid).bind (fun o => objGet o "role")

/-- The check `userProfile?.role !== 'admin'`, negated: true exactly when the
caller's stored profile exists and carries role `'admin'`. -/
def edgeIsAdmin (st : EdgeKV) (uid : String) : Bool :=
  edgeUserRole st uid == some (JVal.str "admin")

/-- Ownership test `existing.userId === user.id` on a stored row. -/
def edgeOwns (existing : Obj) (uid : String) : Bool :=
  objGet existing "userId" == some (JVal.str uid)

/- ===== Edge-function variant: handlers ===== -/

/-- JS `role || 'user'`: the role default of both signup handlers.  An empty
string is falsy in JS, so it also triggers the default. -/
def jsDefaultRole (role : Option String) : String :=
  match role with
  | some r => if r == "" then "user" else r
  | none => "user"

/-- POST /auth/signup (edge variant), success path: stores the profile blob
written by the handler.  Supabase id generation and duplicate-email rejection
happen inside `supabase.auth.admin.createUser` and are abstracted: `uid` is
the id the auth service returned. -/
def edgeSignup (st : EdgeKV) (uid email name : String) (role : Option String)
    (tNow : String) : EdgeKV :=
  let profile : Obj :=
    [("id", JVal.str uid), ("email", JVal.str email), ("name", JVal.str name),
     ("role", JVal.str (jsDefaultRole role)), ("createdAt", JVal.str tNow)]
  { st with users := collSet st.users uid profile }

/-- GET /expenses (edge variant): all expense blobs, filtered to the caller's
own rows unless the caller's profile role is `'admin'`. -/
def edgeGetExpenses (st : EdgeKV) (uid : String) : List Obj :=
  let rows := st.expenses.map (fun p => p.2)
  if edgeIsAdmin st uid then rows
  else rows.filter (fun e => edgeOwns e uid)

/-- GET /incomes (edge variant). -/
def edgeGetIncomes (st : EdgeKV) (uid : String) : List Obj :=
  let rows := st.incomes.map (fun p => p.2)
  if edgeIsAdmin st uid then rows
  else rows.filter (fun e => edgeOwns e uid)

/-- PUT /expenses/:id (edge variant): 404 when absent, 403 unless admin or
owner, otherwise stores `{...existing, ...updates, updatedAt: now}`.
Returns (status, store afterwards). -/
def edgePutExpense (st : EdgeKV) (uid id : String) (updates : Obj)
    (tNow : String) : Nat × EdgeKV :=
  match collGet st.expenses id with
  | none => (404, st)
  | some existing =>
    if !(edgeIsAdmin st uid) && !(edgeOwns existing uid) then (403, st)
    else
      let updated := objSet (objMergeJs existing updates) "updatedAt" (JVal.str tNow)
      (200, { st with expenses := collSet st.expenses id updated })

/-- DELETE /expenses/:id (edge variant): 404 when absent, 403 unless admin or
owner, otherwise deletes. -/
def edgeDeleteExpense (st : EdgeKV) (uid id : String) : Nat × EdgeKV :=
  match collGet st.expenses id with
  | none => (404, st)
  | some existing =>
    if !(edgeIsAdmin st uid) && !(edgeOwns existing uid) then (403, st)
    else (200, { st with expenses := collDel st.expenses id })

/-- PUT /incomes/:id (edge variant), same shape as the expense handler. -/
def edgePutIncome (st : EdgeKV) (uid id : String) (updates : Obj)
    (tNow : String) : Nat × EdgeKV :=
  match collGet st.incomes id with
  | none => (404, st)
  | some existing =>
    if !(edgeIsAdmin st uid) && !(edgeOwns existing uid) then (403, st)
    else
      let updated := objSet (objMergeJs existing updates) "updatedAt" (JVal.str tNow)
      (200, { st with incomes := collSet st.incomes id updated })

/-- DELETE /incomes/:id (edge variant). -/
def edgeDeleteIncome (st : EdgeKV) (uid id : String) : Nat × EdgeKV :=
  match collGet st.incomes id with
  | none => (404, st)
  | some existing =>
    if !(edgeIsAdmin st uid) && !(edgeOwns existing uid) then (403, st)
    else (200, { st with incomes := collDel st.incomes id })

/-- PUT /projects/:id (edge variant): existence check only — the handler reads
no caller identity and performs no ownership check. -/
def edgePutProject (st : EdgeKV) (id : String) (updates : Obj)
    (tNow : String) : Nat × EdgeKV :=
  match collGet st.projects id with
  | none => (404, st)
  | some existing =>
    let updated := objSet (objMergeJs existing updates) "updatedAt" (JVal.str tNow)
    (200, { st with projects := collSet st.projects id updated })

/-- DELETE /projects/:id (edge variant): unconditional `kv.del`, no existence
or ownership check; always answers `{success: true}`. -/
def edgeDeleteProject (st : EdgeKV) (id : String) : Nat × EdgeKV :=
  (200, { st with projects := collDel st.projects id })

/-- PUT /categories/:id (edge variant): existence check, no ownership check,
spread-merge update. -/
def edgePutCategory (st : EdgeKV) (id : String) (updates : Obj)
    (tNow : String) : Nat × EdgeKV :=
  match collGet st.categories id with
  | none => (404, st)
  | some existing =>
    let updated := objSet (objMergeJs existing updates) "updatedAt" (JVal.str tNow)
    (200, { st with categories := collSet st.categories id updated })

/-- DELETE /categories/:id (edge variant): unconditional `kv.del`. -/
def edgeDeleteCategory (st : EdgeKV) (id : String) : Nat × EdgeKV :=
  (200, { st with categories := collDel st.categories id })

/-- DELETE /subcategories/:id (edge variant): unconditional `kv.del`. -/
def edgeDeleteSubcategory (st : EdgeKV) (id : String) : Nat × EdgeKV :=
  (200, { st with subcategories := collDel st.subcategories id })

/- ===== Auth middleware (both variants) ===== -/

/-- Outcome of an auth middleware: rejection with a status, or acceptance of
an identity of type `α`. -/
inductive AuthOut (α : Type) where
  | reject (status : Nat)
  | accept (user : α)
deriving DecidableEq

/-- Token extraction `authHeader && authHeader.split(' ')[1]` followed by the
JS falsiness test `if (!token)`: an absent header, a header without a second
word, and an empty second word all yield no token. -/
def bearerToken (header : Option String) : Option String :=
  match header.bind (fun h => (splitWords h).get? 1) with
  | some t => if t == "" then none else some t
  | none => none

/-- `authenticateToken` (SQL variant): 401 without a token, 403 when
`jwt.verify` fails (invalid or expired), else the decoded identity is
attached.  `verify` abstracts `jwt.verify` against the server secret. -/
def authenticateToken {α : Type} (header : Option String)
    (verify : String → Option α) : AuthOut α :=
  match bearerToken header with
  | none => AuthOut.reject 401
  | some t =>
    match verify t with
    | none => AuthOut.reject 403
    | some u => AuthOut.accept u

/-- `requireAuth` (edge variant): 401 without a token, and 401 again when
`supabase.auth.getUser` yields an error or no user. -/
def requireAuth {α : Type} (header : Option String)
    (getUser : String → Option α) : AuthOut α :=
  match bearerToken header with
  | none => AuthOut.reject 401
  | some t =>
    match getUser t with
    | none => AuthOut.reject 401
    | some u => AuthOut.accept u

/- ===== SQL variant: data model ===== -/

/-- A row of the `users` table (with the bcrypt hash the login handler
compares against). -/
structure SqlUser where
  id : Nat
  name : String
  email : String
  passwordHash : String
  role : String
deriving DecidableEq

/-- The JWT payload `{id, email, role}` signed by register/login. -/
structure SqlToken where
  id : Nat
  email : String
  role : String
deriving DecidableEq

/-- The authenticated caller as the middleware attaches it (`req.user`). -/
structure SqlCaller where
  id : Nat
  role : String
deriving DecidableEq

/-- A row of the `categories` table. -/
structure SqlCategory where
  id : Nat
  name : String
  ctype : String
deriving DecidableEq

/-- A row of the `expenses` table.  The SQL `DATE` value is modelled by its
absolute month index (year * 12 + month) together with the day of month; the
handlers never read finer structure than that. -/
structure SqlExpense where
  id : Nat
  dateMonth : Int
  dateDay : Int
  amount : ℚ
  remarks : String
  categoryId : Option Nat
  subcategoryId : Option Nat
  projectId : Option Nat
  userId : Option Nat
deriving DecidableEq

/-- A row of the `incomes` table.  The `database.sql` dump omits a
`subcategory_id` column (as it omits `users.password`), but every income
handler reads or writes it — INSERT and UPDATE name it and the listing maps
`r.subcategory_id` — so the dump is stale and the handler-level row shape is
the faithful one. -/
structure SqlIncome where
  id : Nat
  dateMonth : Int
  dateDay : Int
  amount : ℚ
  remarks : String
  categoryId : Option Nat
  subcategoryId : Option Nat
  projectId : Option Nat
  userId : Option Nat
deriving DecidableEq

/-- A row of the `projects` table (the columns the audited handlers read). -/
structure SqlProject where
  id : Nat
  name : String
  descr : String
  startDate : Int
  userId : Option Nat
deriving DecidableEq

/- ===== SQL variant: auth handlers ===== -/

/-- Result of POST /api/auth/register. -/
inductive RegisterOut where
  | failure (status : Nat) (msg : String)
  | success (token : SqlToken) (user : SqlUser)
deriving DecidableEq

/-- POST /api/auth/register: duplicate email → 400, otherwise the row is
inserted with role `role || 'user'` and a token embedding the same role is
signed.  `nextId` abstracts the AUTO_INCREMENT insert id and `hashed` the
bcrypt hash. -/
def register (users : List SqlUser) (nextId : Nat) (name email hashed : String)
    (role : Option String) : RegisterOut × List SqlUser :=
  if users.any (fun u => u.email == email) then
    (RegisterOut.failure 400 "Email already exists", users)
  else
    let r := jsDefaultRole role
    let u : SqlUser := ⟨nextId, name, email, hashed, r⟩
    (RegisterOut.success ⟨nextId, email, r⟩ u, users ++ [u])

/-- Result of POST /api/auth/login. -/
inductive LoginOut where
  | failure (status : Nat) (msg : String)
  | success (token : SqlToken)
deriving DecidableEq

/-- POST /api/auth/login: unknown email → 400 "User not found"; hash mismatch
→ 400 "Invalid password"; else a token is signed.  `check` abstracts
`bcrypt.compare`. -/
def login (users : List SqlUser) (check : String → String → Bool)
    (email password : String) : LoginOut :=
  match users.find? (fun u => u.email == email) with
  | none => LoginOut.failure 400 "User not found"
  | some u =>
    if !(check password u.passwordHash) then LoginOut.failure 400 "Invalid password"
    else LoginOut.success ⟨u.id, u.email, u.role⟩

/- ===== SQL variant: project CRUD ===== -/

/-- GET /api/projects row filter: non-admins see only `UserID = caller.id`;
a non-empty `search` must occur in `ProjectName` or `Description`
(`if (search)` skips the condition on the empty string, which is falsy). -/
def projectMatches (caller : SqlCaller) (search : String) (r : SqlProject) : Bool :=
  (caller.role == "admin" || r.userId == some caller.id) &&
  (search == "" || strContains r.name search || strContains r.descr search)

/-- The separately built COUNT(*) query of GET /api/projects: same role and
search conditions, no LIMIT/OFFSET. -/
def projectCountMatches (caller : SqlCaller) (search : String) (r : SqlProject) : Bool :=
  (caller.role == "admin" || r.userId == some caller.id) &&
  (search == "" || strContains r.name search || strContains r.descr search)

/-- GET /api/projects: filter, ORDER BY ProjectStartDate DESC,
LIMIT `limit` OFFSET `(page-1)*limit`; the total comes from the parallel
count query.  Returns (page of rows, total). -/
def getProjects (tbl : List SqlProject) (caller : SqlCaller)
    (page limit : Nat) (search : String) : List SqlProject × Nat :=
  let filtered := tbl.filter (projectMatches caller search)
  let sorted := List.insertionSort (fun a b => b.startDate ≤ a.startDate) filtered
  (((sorted.drop ((page - 1) * limit)).take limit),
    (tbl.filter (projectCountMatches caller search)).length)

/-- PUT /api/projects/:id: 404 when absent, 403 unless admin or owner
(`existing[0].UserID !== req.user.id` is a strict comparison, so a NULL owner
also fails it), else the three columns are updated. -/
def updateProject (tbl : List SqlProject) (caller : SqlCaller) (pid : Nat)
    (name descr : String) (startDate : Int) : Nat × List SqlProject :=
  match tbl.find? (fun r => r.id == pid) with
  | none => (404, tbl)
  | some row =>
    if !(caller.role == "admin") && !(row.userId == some caller.id) then (403, tbl)
    else
      (200, tbl.map (fun r =>
        if r.id == pid then { r with name := name, descr := descr, startDate := startDate }
        else r))

/-- DELETE /api/projects/:id: 404 when absent, 403 unless admin or owner,
else the row is deleted. -/
def deleteProject (tbl : List SqlProject) (caller : SqlCaller) (pid : Nat) :
    Nat × List SqlProject :=
  match tbl.find? (fun r => r.id == pid) with
  | none => (404, tbl)
  | some row =>
    if !(caller.role == "admin") && !(row.userId == some caller.id) then (403, tbl)
    else (200, tbl.filter (fun r => !(r.id == pid)))

/- ===== SQL variant: expense/income CRUD ===== -/

/-- GET /api/expenses search filter: a non-empty `search` must occur in
`e.remarks` or in the LEFT-JOINed category name (a NULL join partner never
matches LIKE). -/
def expenseMatchesSearch (cats : List SqlCategory) (search : String)
    (e : SqlExpense) : Bool :=
  search == "" || strContains e.remarks search ||
    (match e.categoryId.bind (fun cid => (cats.find? (fun c => c.id == cid)).map (fun c => c.name)) with
     | some n => strContains n search
     | none => false)

/-- GET /api/expenses: NO ownership filter — the user filter in the source is
commented out, so the query, its ORDER BY date DESC and its pagination run
over every user's rows; the caller attached by the middleware is never read.
Returns (page of rows, total over the same search filter). -/
def getExpenses (tbl : List SqlExpense) (cats : List SqlCategory)
    (_caller : SqlCaller) (page limit : Nat) (search : String) :
    List SqlExpense × Nat :=
  let filtered := tbl.filter (expenseMatchesSearch cats search)
  let sorted := List.insertionSort
    (fun a b => b.dateMonth < a.dateMonth ||
      (b.dateMonth == a.dateMonth && b.dateDay ≤ a.dateDay)) filtered
  (((sorted.drop ((page - 1) * limit)).take limit),
    (tbl.filter (expenseMatchesSearch cats search)).length)

/-- GET /api/incomes: no search support and, like the expense listing, no
ownership filter; ORDER BY date DESC with LIMIT/OFFSET over all rows. -/
def getIncomes (tbl : List SqlIncome) (_caller : SqlCaller)
    (page limit : Nat) : List SqlIncome × Nat :=
  let sorted := List.insertionSort
    (fun a b => b.dateMonth < a.dateMonth ||
      (b.dateMonth == a.dateMonth && b.dateDay ≤ a.dateDay)) tbl
  (((sorted.drop ((page - 1) * limit)).take limit), tbl.length)

/-- PUT /api/expenses/:id: one unconditional UPDATE ... WHERE id=?.  The
handler never loads the row, never consults `req.user`, and answers
`{success: true}` whether or not any row matched. -/
def updateExpense (tbl : List SqlExpense) (_caller : SqlCaller) (eid : Nat)
    (dM dD : Int) (amount : ℚ) (remarks : String)
    (categoryId subcategoryId projectId : Option Nat) : Nat × List SqlExpense :=
  (200, tbl.map (fun r =>
    if r.id == eid then
      { r with dateMonth := dM, dateDay := dD, amount := amount,
               remarks := remarks, categoryId := categoryId,
               subcategoryId := subcategoryId, projectId := projectId }
    else r))

/-- DELETE /api/expenses/:id: one unconditional DELETE ... WHERE id=?; no
ownership or existence check. -/
def deleteExpense (tbl : List SqlExpense) (_caller : SqlCaller) (eid : Nat) :
    Nat × List SqlExpense :=
  (200, tbl.filter (fun r => !(r.id == eid)))

/-- PUT /api/incomes/:id: one unconditional UPDATE ... WHERE id=?, mirroring
the expense handler — the handler never loads the row, never consults
`req.user`, and answers `{success: true}` whether or not any row matched. -/
def updateIncome (tbl : List SqlIncome) (_caller : SqlCaller) (iid : Nat)
    (dM dD : Int) (amount : ℚ) (remarks : String)
    (categoryId subcategoryId projectId : Option Nat) : Nat × List SqlIncome :=
  (200, tbl.map (fun r =>
    if r.id == iid then
      { r with dateMonth := dM, dateDay := dD, amount := amount,
               remarks := remarks, categoryId := categoryId,
               subcategoryId := subcategoryId, projectId := projectId }
    else r))

/-- DELETE /api/incomes/:id: one unconditional DELETE ... WHERE id=?. -/
def deleteIncome (tbl : List SqlIncome) (_caller : SqlCaller) (iid : Nat) :
    Nat × List SqlIncome :=
  (200, tbl.filter (fun r => !(r.id == iid)))

/- ===== Analytics: edge-function variant =====
The analytics handlers read only `userId`, `amount` and the calendar month of
`date` from each transaction blob, so transactions are modelled by those three
fields; `month` is the absolute month index `getFullYear() * 12 + getMonth()`.
`role` is the caller's stored profile role as the handlers look it up. -/

/-- A transaction as the analytics handlers see it. -/
structure EdgeTxn where
  userId : String
  month : Int
  amount : ℚ
deriving DecidableEq

/-- The role scoping shared by every analytics handler: unless the caller's
profile role is `'admin'`, keep only rows with `userId === user.id`. -/
def roleScope (role : Option String) (uid : String) (txns : List EdgeTxn) :
    List EdgeTxn :=
  if role == some "admin" then txns
  else txns.filter (fun t => t.userId == uid)

/-- The running total `reduce((sum, t) => sum + (t.amount || 0), 0)`. -/
def reduceAmount (txns : List EdgeTxn) : ℚ :=
  txns.foldl (fun s t => s + t.amount) 0

/-- Total amount of one calendar month's transactions. -/
def monthTotal (txns : List EdgeTxn) (m : Int) : ℚ :=
  reduceAmount (txns.filter (fun t => t.month == m))

/-- Response of GET /analytics/dashboard (edge variant). -/
structure DashboardStats where
  totalExpenses : ℚ
  totalIncomes : ℚ
  balance : ℚ
  monthlyExpenses : ℚ
  monthlyIncomes : ℚ
  monthlyBalance : ℚ
  expenseCount : Nat
  incomeCount : Nat
deriving DecidableEq

/-- GET /analytics/dashboard (edge variant): role-scope both stores, total
them, and total the current calendar month; `balance` is computed as
`totalIncomes - totalExpenses`. -/
def edgeDashboard (role : Option String) (uid : String)
    (expenses incomes : List EdgeTxn) (nowMonth : Int) : DashboardStats :=
  let es := roleScope role uid expenses
  let ins := roleScope role uid incomes
  let totalE := reduceAmount es
  let totalI := reduceAmount ins
  let mE := monthTotal es nowMonth
  let mI := monthTotal ins nowMonth
  { totalExpenses := totalE, totalIncomes := totalI,
    balance := totalI - totalE,
    monthlyExpenses := mE, monthlyIncomes := mI,
    monthlyBalance := mI - mE,
    expenseCount := es.length, incomeCount := ins.length }

/-- One bucket of GET /analytics/monthly-trends (edge variant); `month` is the
absolute month index rendered by `toLocaleString(short, numeric-year)`. -/
structure EdgeBucket where
  month : Int
  expenses : ℚ
  incomes : ℚ
  balance : ℚ
deriving DecidableEq

/-- The edge trend bucket as the object literal the handler pushes. -/
def edgeBucketJson (b : EdgeBucket) : Obj :=
  [("month", JVal.num b.month), ("expenses", JVal.num b.expenses),
   ("incomes", JVal.num b.incomes), ("balance", JVal.num b.balance)]

/-- GET /analytics/monthly-trends (edge variant): the loop
`for (i = months-1; i >= 0; i--)` pushes, for the month `now - i`, the bucket
`{month, expenses, incomes, balance: incomes - expenses}`; `months` comes from
the query parameter (default 12). -/
def edgeMonthlyTrends (role : Option String) (uid : String)
    (expenses incomes : List EdgeTxn) (nowMonth : Int) (months : Nat) :
    List EdgeBucket :=
  let es := roleScope role uid expenses
  let ins := roleScope role uid incomes
  (List.range months).map (fun (j : Nat) =>
    let m := nowMonth - (months : Int) + 1 + (j : Int)
    { month := m, expenses := monthTotal es m, incomes := monthTotal ins m,
      balance := monthTotal ins m - monthTotal es m })

/- ===== Analytics: SQL variant ===== -/

/-- Response of GET /api/dashboard-stats (SQL variant — note: no per-user
scoping, and no `monthlyExpenses`/`monthlyIncomes` fields). -/
structure SqlDashboardStats where
  totalExpenses : ℚ
  totalIncomes : ℚ
  balance : ℚ
  monthlyBalance : ℚ
  expenseCount : Nat
  incomeCount : Nat
deriving DecidableEq

/-- The expense-row total `reduce((sum, item) => sum + Number(item.amount), 0)`. -/
def reduceAmountE (rows : List SqlExpense) : ℚ :=
  rows.foldl (fun s r => s + r.amount) 0

/-- The income-row total. -/
def reduceAmountI (rows : List SqlIncome) : ℚ :=
  rows.foldl (fun s r => s + r.amount) 0

/-- GET /api/dashboard-stats: totals over all rows of both tables, current
month totals by the `YYYY-MM` key of each date, `balance = totalIncomes -
totalExpenses`. -/
def dashboardStats (expenses : List SqlExpense) (incomes : List SqlIncome)
    (nowMonth : Int) : SqlDashboardStats :=
  let totalE := reduceAmountE expenses
  let totalI := reduceAmountI incomes
  let mE := reduceAmountE (expenses.filter (fun r => r.dateMonth == nowMonth))
  let mI := reduceAmountI (incomes.filter (fun r => r.dateMonth == nowMonth))
  { totalExpenses := totalE, totalIncomes := totalI,
    balance := totalI - totalE, monthlyBalance := mI - mE,
    expenseCount := expenses.length, incomeCount := incomes.length }

/-- One bucket of GET /api/monthly-trends (SQL variant): `month` holds only
the `DATE_FORMAT('%b')` month name, modelled as the residue `idx % 12`; the
pushed object has NO balance field. -/
structure SqlBucket where
  month : Int
  expenses : ℚ
  incomes : ℚ
deriving DecidableEq

/-- The SQL trend bucket as the object literal the handler pushes:
`{month, expenses, incomes}`. -/
def sqlBucketJson (b : SqlBucket) : Obj :=
  [("month", JVal.num b.month), ("expenses", JVal.num b.expenses),
   ("incomes", JVal.num b.incomes)]

/-- SQL `date >= DATE_SUB(CURDATE(), INTERVAL 6 MONTH)` as a comparison of
(month index, day) pairs. -/
def dateGeB (cut d : Int × Int) : Bool :=
  cut.1 < d.1 || (cut.1 == d.1 && cut.2 ≤ d.2)

/-- The rows both trend queries keep: dates on or after six months before
today.  A row is reduced to (month index, day, amount), all either query
reads. -/
def trendWindow (rows : List (Int × Int × ℚ)) (today : Int × Int) :
    List (Int × Int × ℚ) :=
  rows.filter (fun r => dateGeB (today.1 - 6, today.2) (r.1, r.2.1))

/-- SUM(amount) of the rows of one calendar month. -/
def monthSumQ (rows : List (Int × Int × ℚ)) (m : Int) : ℚ :=
  ((rows.filter (fun r => r.1 == m)).map (fun r => r.2.2)).sum

/-- GROUP BY month ORDER BY year, month of a trend query: the distinct month
indices present, ascending, each with its amount sum (the `%b` name, i.e. the
residue mod 12, is compared against later). -/
def trendGroups (rows : List (Int × Int × ℚ)) : List (Int × ℚ) :=
  (List.insertionSort (fun a b => a ≤ b) ((rows.map (fun r => r.1)).dedup)).map
    (fun m => (m, monthSumQ rows m))

/-- `rows.find(r => r.month === monthStr)` followed by `... ? Number(total) : 0`:
the first group whose month NAME matches the target month's name, else 0. -/
def trendLook (groups : List (Int × ℚ)) (t : Int) : ℚ :=
  match groups.find? (fun g => g.1.emod 12 == t.emod 12) with
  | some g => g.2
  | none => 0

/-- An expense row as the trend query reads it. -/
def expenseTriples (rows : List SqlExpense) : List (Int × Int × ℚ) :=
  rows.map (fun r => (r.dateMonth, r.dateDay, r.amount))

/-- An income row as the trend query reads it. -/
def incomeTriples (rows : List SqlIncome) : List (Int × Int × ℚ) :=
  rows.map (fun r => (r.dateMonth, r.dateDay, r.amount))

/-- GET /api/monthly-trends (SQL variant): two windowed group-by queries, then
the fixed loop `for (i = 5; i >= 0; i--)` builds six buckets, matching each of
the last six months against the grouped rows by month name and filling 0 for
a month with no group. -/
def monthlyTrends (expRows : List SqlExpense) (incRows : List SqlIncome)
    (today : Int × Int) : List SqlBucket :=
  let eg := trendGroups (trendWindow (expenseTriples expRows) today)
  let ig := trendGroups (trendWindow (incomeTriples incRows) today)
  (List.range 6).map (fun (j : Nat) =>
    let t := today.1 - 5 + (j : Int)
    { month := t.emod 12, expenses := trendLook eg t, incomes := trendLook ig t })

/- ===== Helper lemmas: association-list lookups ===== -/

theorem find?_filter_key {β : Type} (e : List (String × β))
    (q : String × β → Bool) (k : String)
    (h : ∀ p : String × β, p.1 = k → q p = true) :
    (e.filter q).find? (fun p => p.1 == k) = e.find? (fun p => p.1 == k) := by
  induction e with
  | nil => simp
  | cons a l ih =>
    by_cases hk : a.1 = k
    · have hq := h a hk
      have hbeq : (a.1 == k) = true := beq_iff_eq.mpr hk
      simp [List.filter_cons, hq, List.find?, hbeq]
    · have hbeq : (a.1 == k) = false := beq_eq_false_iff_ne.mpr hk
      by_cases hqa : q a = true
      · simp [List.filter_cons, hqa, List.find?, hbeq, ih]
      · simp only [Bool.not_eq_true] at hqa
        simp [List.filter_cons, hqa, List.find?, hbeq, ih]

theorem find?_key_eq {β : Type} (l : List (String × β)) (k : String)
    (p : String × β) (h : l.find? (fun q => q.1 == k) = some p) : p.1 = k := by
  have h2 := List.find?_some h
  simp only [beq_iff_eq] at h2
  exact h2

theorem objGet_merge (e u : Obj) (k : String) :
    objGet (objMergeJs e u) k = Option.or (objGet u k) (objGet e k) := by
  unfold objGet objMergeJs
  rw [List.find?_append]
  cases hu : u.find? (fun p => p.1 == k) with
  | some p => simp [Option.or]
  | none =>
    have hnone := List.find?_eq_none.mp hu
    have hfix : (e.filter (fun p => !(u.any (fun q => q.1 == p.1)))).find?
        (fun p => p.1 == k) = e.find? (fun p => p.1 == k) := by
      apply find?_filter_key
      intro p hp
      have : u.any (fun q => q.1 == p.1) = false := by
        rw [List.any_eq_false]
        intro x hx
        have := hnone x hx
        simp only [hp]
        simpa using this
      simp [this]
    rw [hfix]
    simp [Option.or]

theorem objGet_set_self (o : Obj) (k : String) (v : JVal) :
    objGet (objSet o k v) k = some v := by
  unfold objGet objSet
  simp [List.find?]

theorem objGet_set_other (o : Obj) (k k' : String) (v : JVal) (h : k' ≠ k) :
    objGet (objSet o k v) k' = objGet o k' := by
  unfold objGet objSet
  have hbeq : (k == k') = false := beq_eq_false_iff_ne.mpr (Ne.symm h)
  rw [List.find?]
  simp only [hbeq]
  rw [find?_filter_key]
  intro p hp
  have : (p.1 == k) = false := beq_eq_false_iff_ne.mpr (hp ▸ h)
  simp [this]

theorem collGet_set_self (l : KvColl) (k : String) (v : Obj) :
    collGet (collSet l k v) k = some v := by
  unfold collGet collSet
  simp [List.find?]

theorem collGet_del (l : KvColl) (k : String) :
    collGet (collDel l k) k = none := by
  unfold collGet collDel
  have hnone : (l.filter (fun p => !(p.1 == k))).find? (fun p => p.1 == k) = none := by
    rw [List.find?_eq_none]
    intro x hx
    have hq := (List.mem_filter.mp hx).2
    simpa using hq
  rw [hnone]
  rfl

theorem collGet_eq_none_find (l : KvColl) (k : String) (h : collGet l k = none) :
    l.find? (fun p => p.1 == k) = none := by
  unfold collGet at h
  cases hf : l.find? (fun p => p.1 == k) with
  | none => rfl
  | some p => rw [hf] at h; simp at h

theorem collDel_of_absent (l : KvColl) (k : String)
    (h : l.find? (fun p => p.1 == k) = none) : collDel l k = l := by
  unfold collDel
  rw [List.filter_eq_self]
  intro a ha
  have := List.find?_eq_none.mp h a ha
  simpa using this

/- ===== Helper lemmas: running totals ===== -/

theorem reduceAmount_eq_sum (txns : List EdgeTxn) :
    reduceAmount txns = (txns.map (fun t => t.amount)).sum := by
  have key : ∀ (l : List EdgeTxn) (a : ℚ),
      l.foldl (fun s t => s + t.amount) a = a + (l.map (fun t => t.amount)).sum := by
    intro l
    induction l with
    | nil => intro a; simp
    | cons x xs ih =>
      intro a
      simp only [List.foldl_cons, List.map_cons, List.sum_cons, ih]
      ring
  simpa using key txns 0

theorem monthTotal_eq_sum (txns : List EdgeTxn) (m : Int) :
    monthTotal txns m =
      ((txns.filter (fun t => t.month == m)).map (fun t => t.amount)).sum := by
  unfold monthTotal
  exact reduceAmount_eq_sum _

theorem monthTotal_of_empty_month (txns : List EdgeTxn) (m : Int)
    (h : ∀ t ∈ txns, t.month ≠ m) : monthTotal txns m = 0 := by
  rw [monthTotal_eq_sum]
  have : txns.filter (fun t => t.month == m) = [] := by
    rw [List.filter_eq_nil_iff]
    intro t ht
    simpa using h t ht
  rw [this]
  simp

theorem reduceAmountE_eq_sum (rows : List SqlExpense) :
    reduceAmountE rows = (rows.map (fun r => r.amount)).sum := by
  have key : ∀ (l : List SqlExpense) (a : ℚ),
      l.foldl (fun s r => s + r.amount) a = a + (l.map (fun r => r.amount)).sum := by
    intro l
    induction l with
    | nil => intro a; simp
    | cons x xs ih =>
      intro a
      simp only [List.foldl_cons, List.map_cons, List.sum_cons, ih]
      ring
  simpa using key rows 0

theorem reduceAmountI_eq_sum (rows : List SqlIncome) :
    reduceAmountI rows = (rows.map (fun r => r.amount)).sum := by
  have key : ∀ (l : List SqlIncome) (a : ℚ),
      l.foldl (fun s r => s + r.amount) a = a + (l.map (fun r => r.amount)).sum := by
    intro l
    induction l with
    | nil => intro a; simp
    | cons x xs ih =>
      intro a
      simp only [List.foldl_cons, List.map_cons, List.sum_cons, ih]
      ring
  simpa using key rows 0

/- ===== C10 ===== -/

/-- C10: in the edge-function variant, DELETE on a category, subcategory or
project id performs no existence check — on an absent id it still answers
success (status 200) and, the key being absent, leaves the store unchanged —
whereas DELETE on an absent expense or income id answers 404 (and leaves the
store unchanged). -/
theorem c10_delete_existence_checks :
    (∀ (st : EdgeKV) (id : String), collGet st.categories id = none →
      (edgeDeleteCategory st id).1 = 200 ∧ (edgeDeleteCategory st id).2 = st) ∧
    (∀ (st : EdgeKV) (id : String), collGet st.subcategories id = none →
      (edgeDeleteSubcategory st id).1 = 200 ∧ (edgeDeleteSubcategory st id).2 = st) ∧
    (∀ (st : EdgeKV) (id : String), collGet st.projects id = none →
      (edgeDeleteProject st id).1 = 200 ∧ (edgeDeleteProject st id).2 = st) ∧
    (∀ (st : EdgeKV) (uid id : String), collGet st.expenses id = none →
      (edgeDeleteExpense st uid id).1 = 404 ∧ (edgeDeleteExpense st uid id).2 = st) ∧
    (∀ (st : EdgeKV) (uid id : String), collGet st.incomes id = none →
      (edgeDeleteIncome st uid id).1 = 404 ∧ (edgeDeleteIncome st uid id).2 = st) := by
  refine ⟨?_, ?_, ?_, ?_, ?_⟩
  · intro st id h
    have hdel := collDel_of_absent st.categories id (collGet_eq_none_find _ _ h)
    exact ⟨rfl, by simp [edgeDeleteCategory, hdel]⟩
  · intro st id h
    have hdel := collDel_of_absent st.subcategories id (collGet_eq_none_find _ _ h)
    exact ⟨rfl, by simp [edgeDeleteSubcategory, hdel]⟩
  · intro st id h
    have hdel := collDel_of_absent st.projects id (collGet_eq_none_find _ _ h)
    exact ⟨rfl, by simp [edgeDeleteProject, hdel]⟩
  · intro st uid id h
    constructor
    · simp [edgeDeleteExpense, h]
    · simp [edgeDeleteExpense, h]
  · intro st uid id h
    constructor
    · simp [edgeDeleteIncome, h]
    · simp [edgeDeleteIncome, h]

/-- C10 witness: on the empty store, deleting category "x" answers 200 while
deleting expense "x" answers 404. -/
theorem c10_witness :
    (edgeDeleteCategory ⟨[], [], [], [], [], []⟩ "x").1 = 200 ∧
    (edgeDeleteExpense ⟨[], [], [], [], [], []⟩ "u" "x").1 = 404 :=
  ⟨(c10_delete_existence_checks.1 ⟨[], [], [], [], [], []⟩ "x" rfl).1,
   (c10_delete_existence_checks.2.2.2.1 ⟨[], [], [], [], [], []⟩ "u" "x" rfl).1⟩

/- ===== C9 ===== -/

theorem merged_updatedAt (existing updates : Obj) (tNow : String) :
    objGet (objSet (objMergeJs existing updates) "updatedAt" (JVal.str tNow))
      "updatedAt" = some (JVal.str tNow) :=
  objGet_set_self _ _ _

theorem merged_other (existing updates : Obj) (tNow : String) (k : String)
    (hk : k ≠ "updatedAt") :
    (∀ v, objGet updates k = some v →
      objGet (objSet (objMergeJs existing updates) "updatedAt" (JVal.str tNow)) k
        = some v) ∧
    (objGet updates k = none →
      objGet (objSet (objMergeJs existing updates) "updatedAt" (JVal.str tNow)) k
        = objGet existing k) := by
  have hother := objGet_set_other (objMergeJs existing updates) "updatedAt" k
    (JVal.str tNow) hk
  constructor
  · intro v hv
    rw [hother, objGet_merge, hv]
    rfl
  · intro hnone
    rw [hother, objGet_merge, hnone]
    rfl

/-- C9: in the edge-function variant, a successful PUT stores the spread merge
of the existing row with the update body: every field named in the body (other
than `updatedAt`, which is freshly set) takes the body's value, every field
not named keeps its prior value, and in particular a body naming `userId`
overwrites it.  Shown for the expense handler (under its ownership guard) and
the category handler (which has no guard). -/
theorem c9_edge_put_merge :
    (∀ (st : EdgeKV) (uid id : String) (updates existing : Obj) (tNow : String),
      collGet st.expenses id = some existing →
      (edgeIsAdmin st uid = true ∨ edgeOwns existing uid = true) →
      (edgePutExpense st uid id updates tNow).1 = 200 ∧
      ∃ updated,
        collGet (edgePutExpense st uid id updates tNow).2.expenses id = some updated ∧
        objGet updated "updatedAt" = some (JVal.str tNow) ∧
        (∀ k, k ≠ "updatedAt" →
          (∀ v, objGet updates k = some v → objGet updated k = some v) ∧
          (objGet updates k = none → objGet updated k = objGet existing k)) ∧
        (∀ v, objGet updates "userId" = some v → objGet updated "userId" = some v)) ∧
    (∀ (st : EdgeKV) (id : String) (updates existing : Obj) (tNow : String),
      collGet st.categories id = some existing →
      (edgePutCategory st id updates tNow).1 = 200 ∧
      ∃ updated,
        collGet (edgePutCategory st id updates tNow).2.categories id = some updated ∧
        objGet updated "updatedAt" = some (JVal.str tNow) ∧
        (∀ k, k ≠ "updatedAt" →
          (∀ v, objGet updates k = some v → objGet updated k = some v) ∧
          (objGet updates k = none → objGet updated k = objGet existing k))) := by
  constructor
  · intro st uid id updates existing tNow hget hauth
    have hcond : (!(edgeIsAdmin st uid) && !(edgeOwns existing uid)) = false := by
      cases hauth with
      | inl h => simp [h]
      | inr h => simp [h]
    have hres : edgePutExpense st uid id updates tNow =
        (200, { st with expenses := collSet st.expenses id (objSet (objMergeJs existing updates) "updatedAt" (JVal.str tNow)) }) := by
      unfold edgePutExpense
      rw [hget]
      simp [hcond]
    refine ⟨by rw [hres], ?_⟩
    refine ⟨objSet (objMergeJs existing updates) "updatedAt" (JVal.str tNow),
      ?_, merged_updatedAt existing updates tNow,
      fun k hk => merged_other existing updates tNow k hk,
      fun v hv => (merged_other existing updates tNow "userId" (by decide)).1 v hv⟩
    rw [hres]
    exact collGet_set_self _ _ _
  · intro st id updates existing tNow hget
    have hres : edgePutCategory st id updates tNow =
        (200, { st with categories := collSet st.categories id (objSet (objMergeJs existing updates) "updatedAt" (JVal.str tNow)) }) := by
      unfold edgePutCategory
      rw [hget]
    refine ⟨by rw [hres], ?_⟩
    refine ⟨objSet (objMergeJs existing updates) "updatedAt" (JVal.str tNow),
      ?_, merged_updatedAt existing updates tNow,
      fun k hk => merged_other existing updates tNow k hk⟩
    rw [hres]
    exact collGet_set_self _ _ _

/-- C9 witness: updating the stored expense `{userId: "u1", amount: 5}` with
the body `{userId: "u2"}` succeeds for its owner and stores `userId = "u2"`
while keeping `amount = 5` and stamping `updatedAt`. -/
theorem c9_witness :
    (edgePutExpense ⟨[], [], [], [], [("e1", [("userId", JVal.str "u1"), ("amount", JVal.num 5)])], []⟩
      "u1" "e1" [("userId", JVal.str "u2")] "T").1 = 200 ∧
    ∃ updated,
      collGet (edgePutExpense ⟨[], [], [], [], [("e1", [("userId", JVal.str "u1"), ("amount", JVal.num 5)])], []⟩
        "u1" "e1" [("userId", JVal.str "u2")] "T").2.expenses "e1" = some updated ∧
      objGet updated "userId" = some (JVal.str "u2") ∧
      objGet updated "amount" = some (JVal.num 5) ∧
      objGet updated "updatedAt" = some (JVal.str "T") := by
  have h := c9_edge_put_merge.1
    ⟨[], [], [], [], [("e1", [("userId", JVal.str "u1"), ("amount", JVal.num 5)])], []⟩
    "u1" "e1" [("userId", JVal.str "u2")]
    [("userId", JVal.str "u1"), ("amount", JVal.num 5)] "T" (by rfl)
    (Or.inr (by rfl))
  obtain ⟨hstatus, updated, hgot, hupd, hmerge, huser⟩ := h
  refine ⟨hstatus, updated, hgot, ?_, ?_, hupd⟩
  · exact huser (JVal.str "u2") (by rfl)
  · exact (hmerge "amount" (by decide)).2 (by rfl)

/- ===== C2 ===== -/

/-- C2 counterexample: in the SQL variant, a non-admin caller (id 1) PUTs
expense 1, which is owned by user 2.  The handler answers 200, not 403, and
the stored amount changes from 50 to 99 — so "PUT by a non-owning, non-admin
caller returns 403 and leaves the row unchanged" fails on the code. -/
theorem c2_counterexample :
    (updateExpense [⟨1, 100, 5, 50, "lunch", some 1, none, none, some 2⟩]
        ⟨1, "user"⟩ 1 100 5 99 "lunch" (some 1) none none).1 = 200 ∧
    (updateExpense [⟨1, 100, 5, 50, "lunch", some 1, none, none, some 2⟩]
        ⟨1, "user"⟩ 1 100 5 99 "lunch" (some 1) none none).2
      = [⟨1, 100, 5, 99, "lunch", some 1, none, none, some 2⟩] ∧
    (⟨1, "user"⟩ : SqlCaller).role ≠ "admin" ∧
    (some 2 : Option Nat) ≠ some (⟨1, "user"⟩ : SqlCaller).id := by
  refine ⟨rfl, ?_, by decide, by decide⟩
  rfl

/-- C2 (amended): the ownership rule — PUT/DELETE by a caller who is neither
the row's owner nor an admin answers 403 and leaves the store unchanged —
holds for the SQL variant's project handlers and the edge-function variant's
expense and income handlers; it is absent from the SQL variant's four
expense/income PUT/DELETE handlers (each applies the mutation for any
authenticated caller and always answers 200) and from the edge-function
variant's project handlers (PUT updates after a mere existence check; DELETE
deletes unconditionally). -/
theorem c2_ownership_enforcement :
    (∀ (tbl : List SqlProject) (caller : SqlCaller) (pid : Nat)
        (n d : String) (sd : Int) (row : SqlProject),
      tbl.find? (fun r => r.id == pid) = some row →
      caller.role ≠ "admin" → row.userId ≠ some caller.id →
      updateProject tbl caller pid n d sd = (403, tbl)) ∧
    (∀ (tbl : List SqlProject) (caller : SqlCaller) (pid : Nat) (row : SqlProject),
      tbl.find? (fun r => r.id == pid) = some row →
      caller.role ≠ "admin" → row.userId ≠ some caller.id →
      deleteProject tbl caller pid = (403, tbl)) ∧
    (∀ (st : EdgeKV) (uid id : String) (updates : Obj) (tNow : String) (existing : Obj),
      collGet st.expenses id = some existing →
      edgeIsAdmin st uid = false → edgeOwns existing uid = false →
      edgePutExpense st uid id updates tNow = (403, st)) ∧
    (∀ (st : EdgeKV) (uid id : String) (existing : Obj),
      collGet st.expenses id = some existing →
      edgeIsAdmin st uid = false → edgeOwns existing uid = false →
      edgeDeleteExpense st uid id = (403, st)) ∧
    (∀ (st : EdgeKV) (uid id : String) (updates : Obj) (tNow : String) (existing : Obj),
      collGet st.incomes id = some existing →
      edgeIsAdmin st uid = false → edgeOwns existing uid = false →
      edgePutIncome st uid id updates tNow = (403, st)) ∧
    (∀ (st : EdgeKV) (uid id : String) (existing : Obj),
      collGet st.incomes id = some existing →
      edgeIsAdmin st uid = false → edgeOwns existing uid = false →
      edgeDeleteIncome st uid id = (403, st)) ∧
    (∀ (tbl : List SqlExpense) (caller : SqlCaller) (eid : Nat) (dM dD : Int)
        (amt : ℚ) (rem : String) (cid sid pjid : Option Nat),
      (updateExpense tbl caller eid dM dD amt rem cid sid pjid).1 = 200 ∧
      ∀ row ∈ tbl, row.id = eid →
        ({ row with dateMonth := dM, dateDay := dD, amount := amt, remarks := rem, categoryId := cid, subcategoryId := sid, projectId := pjid } : SqlExpense)
          ∈ (updateExpense tbl caller eid dM dD amt rem cid sid pjid).2) ∧
    (∀ (tbl : List SqlExpense) (caller : SqlCaller) (eid : Nat),
      (deleteExpense tbl caller eid).1 = 200 ∧
      ∀ row ∈ tbl, row.id = eid → row ∉ (deleteExpense tbl caller eid).2) ∧
    (∀ (tbl : List SqlIncome) (caller : SqlCaller) (iid : Nat),
      (deleteIncome tbl caller iid).1 = 200 ∧
      ∀ row ∈ tbl, row.id = iid → row ∉ (deleteIncome tbl caller iid).2) ∧
    (∀ (tbl : List SqlIncome) (caller : SqlCaller) (iid : Nat) (dM dD : Int)
        (amt : ℚ) (rem : String) (cid sid pjid : Option Nat),
      (updateIncome tbl caller iid dM dD amt rem cid sid pjid).1 = 200 ∧
      ∀ row ∈ tbl, row.id = iid →
        ({ row with dateMonth := dM, dateDay := dD, amount := amt, remarks := rem, categoryId := cid, subcategoryId := sid, projectId := pjid } : SqlIncome)
          ∈ (updateIncome tbl caller iid dM dD amt rem cid sid pjid).2) ∧
    (∀ (st : EdgeKV) (id : String) (updates : Obj) (tNow : String) (existing : Obj),
      collGet st.projects id = some existing →
      (edgePutProject st id updates tNow).1 = 200) ∧
    (∀ (st : EdgeKV) (id : String),
      (edgeDeleteProject st id).1 = 200 ∧
      collGet (edgeDeleteProject st id).2.projects id = none) := by
  refine ⟨?_, ?_, ?_, ?_, ?_, ?_, ?_, ?_, ?_, ?_, ?_, ?_⟩
  · intro tbl caller pid n d sd row hfind hrole howner
    have h1 : (caller.role == "admin") = false := beq_eq_false_iff_ne.mpr hrole
    have h2 : (row.userId == some caller.id) = false := by
      cases hx : row.userId == some caller.id
      · rfl
      · exact absurd (beq_iff_eq.mp hx) howner
    unfold updateProject
    rw [hfind]
    simp [h1, h2]
  · intro tbl caller pid row hfind hrole howner
    have h1 : (caller.role == "admin") = false := beq_eq_false_iff_ne.mpr hrole
    have h2 : (row.userId == some caller.id) = false := by
      cases hx : row.userId == some caller.id
      · rfl
      · exact absurd (beq_iff_eq.mp hx) howner
    unfold deleteProject
    rw [hfind]
    simp [h1, h2]
  · intro st uid id updates tNow existing hget hadmin howns
    unfold edgePutExpense
    rw [hget]
    simp [hadmin, howns]
  · intro st uid id existing hget hadmin howns
    unfold edgeDeleteExpense
    rw [hget]
    simp [hadmin, howns]
  · intro st uid id updates tNow existing hget hadmin howns
    unfold edgePutIncome
    rw [hget]
    simp [hadmin, howns]
  · intro st uid id existing hget hadmin howns
    unfold edgeDeleteIncome
    rw [hget]
    simp [hadmin, howns]
  · intro tbl caller eid dM dD amt rem cid sid pjid
    refine ⟨rfl, ?_⟩
    intro row hrow hid
    have hbeq : (row.id == eid) = true := beq_iff_eq.mpr hid
    have := List.mem_map_of_mem (fun r : SqlExpense =>
      if r.id == eid then
        { r with dateMonth := dM, dateDay := dD, amount := amt,
                 remarks := rem, categoryId := cid,
                 subcategoryId := sid, projectId := pjid }
      else r) hrow
    simpa [updateExpense, hbeq] using this
  · intro tbl caller eid
    refine ⟨rfl, ?_⟩
    intro row hrow hid hmem
    have := (List.mem_filter.mp hmem).2
    simp [hid] at this
  · intro tbl caller iid
    refine ⟨rfl, ?_⟩
    intro row hrow hid hmem
    have := (List.mem_filter.mp hmem).2
    simp [hid] at this
  · intro tbl caller iid dM dD amt rem cid sid pjid
    refine ⟨rfl, ?_⟩
    intro row hrow hid
    have hbeq : (row.id == iid) = true := beq_iff_eq.mpr hid
    have := List.mem_map_of_mem (fun r : SqlIncome =>
      if r.id == iid then
        { r with dateMonth := dM, dateDay := dD, amount := amt,
                 remarks := rem, categoryId := cid,
                 subcategoryId := sid, projectId := pjid }
      else r) hrow
    simpa [updateIncome, hbeq] using this
  · intro st id updates tNow existing hget
    unfold edgePutProject
    rw [hget]
  · intro st id
    exact ⟨rfl, collGet_del _ _⟩

/-- C2 witness: concrete instances — project 1 owned by user 2 is protected
from caller 1 in the SQL variant; expense "e1" owned by "u2" is protected
from caller "u1" in the edge variant; the SQL expense delete removes a
foreign row with status 200; and the SQL income update rewrites a foreign
row's amount with status 200. -/
theorem c2_witness :
    updateProject [⟨1, "p", "d", 7, some 2⟩] ⟨1, "user"⟩ 1 "q" "d2" 8
      = (403, [⟨1, "p", "d", 7, some 2⟩]) ∧
    edgePutExpense ⟨[], [], [], [], [("e1", [("userId", JVal.str "u2")])], []⟩
      "u1" "e1" [("amount", JVal.num 9)] "T"
      = (403, ⟨[], [], [], [], [("e1", [("userId", JVal.str "u2")])], []⟩) ∧
    (deleteExpense [⟨1, 100, 5, 50, "x", none, none, none, some 2⟩] ⟨1, "user"⟩ 1).1 = 200 ∧
    (⟨1, 100, 5, 50, "x", none, none, none, some 2⟩ : SqlExpense)
      ∉ (deleteExpense [⟨1, 100, 5, 50, "x", none, none, none, some 2⟩] ⟨1, "user"⟩ 1).2 ∧
    (updateIncome [⟨1, 100, 5, 50, "y", none, none, none, some 2⟩]
      ⟨1, "user"⟩ 1 100 5 75 "y" none none none).1 = 200 ∧
    (⟨1, 100, 5, 75, "y", none, none, none, some 2⟩ : SqlIncome)
      ∈ (updateIncome [⟨1, 100, 5, 50, "y", none, none, none, some 2⟩]
          ⟨1, "user"⟩ 1 100 5 75 "y" none none none).2 := by
  refine ⟨?_, ?_, ?_, ?_, ?_, ?_⟩
  · exact c2_ownership_enforcement.1 [⟨1, "p", "d", 7, some 2⟩] ⟨1, "user"⟩ 1 "q" "d2" 8
      ⟨1, "p", "d", 7, some 2⟩ (by rfl) (by decide) (by decide)
  · exact c2_ownership_enforcement.2.2.1
      ⟨[], [], [], [], [("e1", [("userId", JVal.str "u2")])], []⟩
      "u1" "e1" [("amount", JVal.num 9)] "T" [("userId", JVal.str "u2")]
      (by rfl) (by rfl) (by rfl)
  · exact (c2_ownership_enforcement.2.2.2.2.2.2.2.1
      [⟨1, 100, 5, 50, "x", none, none, none, some 2⟩] ⟨1, "user"⟩ 1).1
  · exact (c2_ownership_enforcement.2.2.2.2.2.2.2.1
      [⟨1, 100, 5, 50, "x", none, none, none, some 2⟩] ⟨1, "user"⟩ 1).2
      ⟨1, 100, 5, 50, "x", none, none, none, some 2⟩ (by simp) (by rfl)
  · exact (c2_ownership_enforcement.2.2.2.2.2.2.2.2.2.1
      [⟨1, 100, 5, 50, "y", none, none, none, some 2⟩] ⟨1, "user"⟩ 1
      100 5 75 "y" none none none).1
  · exact (c2_ownership_enforcement.2.2.2.2.2.2.2.2.2.1
      [⟨1, 100, 5, 50, "y", none, none, none, some 2⟩] ⟨1, "user"⟩ 1
      100 5 75 "y" none none none).2
      ⟨1, 100, 5, 50, "y", none, none, none, some 2⟩ (by simp) (by rfl)

/- ===== C1 ===== -/

/-- C1 counterexample: in the SQL variant, non-admin caller 1 lists expenses
and receives the row owned by user 2 — the listing is not restricted to rows
whose `userId` equals the caller's id. -/
theorem c1_counterexample :
    ((getExpenses [⟨1, 100, 5, 50, "lunch", some 1, none, none, some 2⟩] []
        ⟨1, "user"⟩ 1 10 "").1.map (fun r => r.userId)) = [some 2] ∧
    (⟨1, "user"⟩ : SqlCaller).role ≠ "admin" ∧
    (some 2 : Option Nat) ≠ some (⟨1, "user"⟩ : SqlCaller).id := by
  refine ⟨?_, by decide, by decide⟩
  rfl

/-- C1 (amended): in the edge-function variant the listings behave as claimed
— a non-admin caller receives exactly the stored rows whose `userId` equals
the caller's id, and an admin receives every row — while the SQL variant's
expense and income listings ignore the caller entirely (the ownership filter
is commented out), returning the same page of all users' rows to every
authenticated caller. -/
theorem c1_listing_scope :
    (∀ (st : EdgeKV) (uid : String), edgeIsAdmin st uid = false →
      ∀ e : Obj, e ∈ edgeGetExpenses st uid ↔
        (e ∈ st.expenses.map (fun p => p.2) ∧ objGet e "userId" = some (JVal.str uid))) ∧
    (∀ (st : EdgeKV) (uid : String), edgeIsAdmin st uid = true →
      edgeGetExpenses st uid = st.expenses.map (fun p => p.2)) ∧
    (∀ (st : EdgeKV) (uid : String), edgeIsAdmin st uid = false →
      ∀ e : Obj, e ∈ edgeGetIncomes st uid ↔
        (e ∈ st.incomes.map (fun p => p.2) ∧ objGet e "userId" = some (JVal.str uid))) ∧
    (∀ (st : EdgeKV) (uid : String), edgeIsAdmin st uid = true →
      edgeGetIncomes st uid = st.incomes.map (fun p => p.2)) ∧
    (∀ (tbl : List SqlExpense) (cats : List SqlCategory) (c c' : SqlCaller)
        (page limit : Nat) (search : String),
      getExpenses tbl cats c page limit search = getExpenses tbl cats c' page limit search) ∧
    (∀ (tbl : List SqlIncome) (c c' : SqlCaller) (page limit : Nat),
      getIncomes tbl c page limit = getIncomes tbl c' page limit) := by
  refine ⟨?_, ?_, ?_, ?_, ?_, ?_⟩
  · intro st uid h e
    unfold edgeGetExpenses
    rw [if_neg (by simp [h])]
    rw [List.mem_filter]
    unfold edgeOwns
    simp [beq_iff_eq]
  · intro st uid h
    unfold edgeGetExpenses
    rw [if_pos (by simp [h])]
  · intro st uid h e
    unfold edgeGetIncomes
    rw [if_neg (by simp [h])]
    rw [List.mem_filter]
    unfold edgeOwns
    simp [beq_iff_eq]
  · intro st uid h
    unfold edgeGetIncomes
    rw [if_pos (by simp [h])]
  · intro tbl cats c c' page limit search
    rfl
  · intro tbl c c' page limit
    rfl

/-- C1 witness: in the edge variant, non-admin caller "u1" receives its own
row and not user "u2"'s row; in the SQL variant the listing output for the
non-admin caller 1 and the admin caller 2 coincide. -/
theorem c1_witness :
    ([("userId", JVal.str "u1")] : Obj) ∈ edgeGetExpenses
      ⟨[("u1", [("role", JVal.str "user")])], [], [], [],
       [("e1", [("userId", JVal.str "u1")]), ("e2", [("userId", JVal.str "u2")])], []⟩ "u1" ∧
    ([("userId", JVal.str "u2")] : Obj) ∉ edgeGetExpenses
      ⟨[("u1", [("role", JVal.str "user")])], [], [], [],
       [("e1", [("userId", JVal.str "u1")]), ("e2", [("userId", JVal.str "u2")])], []⟩ "u1" ∧
    getExpenses [⟨1, 100, 5, 50, "lunch", some 1, none, none, some 2⟩] []
        ⟨1, "user"⟩ 1 10 ""
      = getExpenses [⟨1, 100, 5, 50, "lunch", some 1, none, none, some 2⟩] []
        ⟨2, "admin"⟩ 1 10 "" := by
  refine ⟨?_, ?_, ?_⟩
  · exact (c1_listing_scope.1
      ⟨[("u1", [("role", JVal.str "user")])], [], [], [],
       [("e1", [("userId", JVal.str "u1")]), ("e2", [("userId", JVal.str "u2")])], []⟩
      "u1" (by rfl) [("userId", JVal.str "u1")]).mpr ⟨by simp, by rfl⟩
  · intro hmem
    have h2 := ((c1_listing_scope.1
      ⟨[("u1", [("role", JVal.str "user")])], [], [], [],
       [("e1", [("userId", JVal.str "u1")]), ("e2", [("userId", JVal.str "u2")])], []⟩
      "u1" (by rfl) [("userId", JVal.str "u2")]).mp hmem).2
    exact absurd h2 (by decide)
  · exact c1_listing_scope.2.2.2.2.1
      [⟨1, 100, 5, 50, "lunch", some 1, none, none, some 2⟩] []
      ⟨1, "user"⟩ ⟨2, "admin"⟩ 1 10 ""

/- ===== C3 ===== -/

/-- C3 counterexample: registering with the role field PRESENT but equal to
the empty string still stores the default role "user" (JS `role || 'user'`
treats the empty string as falsy), so "the default role 'user' applies only
when the role field is absent" fails on the code. -/
theorem c3_counterexample :
    (register [] 1 "n" "e@x" "h" (some "")).1
      = RegisterOut.success ⟨1, "e@x", "user"⟩ ⟨1, "n", "e@x", "h", "user"⟩ ∧
    (some "" : Option String) ≠ none ∧
    ("user" : String) ≠ "" := by
  exact ⟨rfl, by decide, by decide⟩

/-- C3 (amended): neither variant restricts which role a self-registering
caller may claim: a signup naming role "admin" succeeds and stores role
"admin" (and, in the SQL variant, embeds it in the issued token); any
non-empty role string is stored as given; the default "user" applies when
the role field is absent or empty (falsy), not only when absent. -/
theorem c3_self_registration_role :
    (∀ (users : List SqlUser) (nextId : Nat) (name email hashed : String)
        (role : Option String),
      users.any (fun u => u.email == email) = false →
      register users nextId name email hashed role
        = (RegisterOut.success ⟨nextId, email, jsDefaultRole role⟩
             ⟨nextId, name, email, hashed, jsDefaultRole role⟩,
           users ++ [⟨nextId, name, email, hashed, jsDefaultRole role⟩])) ∧
    jsDefaultRole (some "admin") = "admin" ∧
    jsDefaultRole none = "user" ∧
    jsDefaultRole (some "") = "user" ∧
    (∀ r : String, r ≠ "" → jsDefaultRole (some r) = r) ∧
    (∀ (st : EdgeKV) (uid email name : String) (role : Option String) (tNow : String),
      ∃ profile,
        collGet (edgeSignup st uid email name role tNow).users uid = some profile ∧
        objGet profile "role" = some (JVal.str (jsDefaultRole role))) := by
  refine ⟨?_, by rfl, by rfl, by rfl, ?_, ?_⟩
  · intro users nextId name email hashed role hfresh
    unfold register
    simp [hfresh]
  · intro r hr
    have : (r == "") = false := beq_eq_false_iff_ne.mpr hr
    simp [jsDefaultRole, this]
  · intro st uid email name role tNow
    refine ⟨_, collGet_set_self _ _ _, ?_⟩
    rfl

/-- C3 witness: on an empty user table, registering with role "admin"
succeeds, stores role "admin" and signs a token embedding role "admin". -/
theorem c3_witness :
    register [] 1 "n" "a@x" "h" (some "admin")
      = (RegisterOut.success ⟨1, "a@x", "admin"⟩ ⟨1, "n", "a@x", "h", "admin"⟩,
         [⟨1, "n", "a@x", "h", "admin"⟩]) := by
  have h := c3_self_registration_role.1 [] 1 "n" "a@x" "h" (some "admin") (by rfl)
  simpa using h

/- ===== C6 ===== -/

/-- C6 counterexample: the edge-function middleware answers 401 — not 403 —
to a request bearing a token the auth service rejects, so "invalid or expired
tokens are rejected with status 403" fails on the edge variant. -/
theorem c6_counterexample :
    requireAuth (some "Bearer badtoken") (fun _ => (none : Option String))
      = AuthOut.reject 401 ∧
    (AuthOut.reject 401 : AuthOut String) ≠ AuthOut.reject 403 := by
  exact ⟨rfl, by decide⟩

/-- C6 (amended): both middlewares answer 401 when no bearer token is present
(missing header, headers without a second word, or an empty token, all falsy
in JS); for a present token that fails verification the SQL variant answers
403 as claimed, but the edge-function variant answers 401. -/
theorem c6_auth_statuses :
    (∀ verify : String → Option SqlToken,
      authenticateToken none verify = AuthOut.reject 401) ∧
    (∀ (header : Option String) (verify : String → Option SqlToken),
      bearerToken header = none →
      authenticateToken header verify = AuthOut.reject 401) ∧
    (∀ (header : Option String) (t : String) (verify : String → Option SqlToken),
      bearerToken header = some t → verify t = none →
      authenticateToken header verify = AuthOut.reject 403) ∧
    (∀ getUser : String → Option String,
      requireAuth none getUser = AuthOut.reject 401) ∧
    (∀ (header : Option String) (getUser : String → Option String),
      bearerToken header = none →
      requireAuth header getUser = AuthOut.reject 401) ∧
    (∀ (header : Option String) (t : String) (getUser : String → Option String),
      bearerToken header = some t → getUser t = none →
      requireAuth header getUser = AuthOut.reject 401) := by
  refine ⟨?_, ?_, ?_, ?_, ?_, ?_⟩
  · intro verify
    rfl
  · intro header verify h
    unfold authenticateToken
    rw [h]
  · intro header t verify h hv
    unfold authenticateToken
    rw [h]
    simp [hv]
  · intro getUser
    rfl
  · intro header getUser h
    unfold requireAuth
    rw [h]
  · intro header t getUser h hv
    unfold requireAuth
    rw [h]
    simp [hv]

/-- C6 witness: concrete headers — no header gives 401 in both variants; the
header "Bearer tok" with a rejecting verifier gives 403 in the SQL variant
and 401 in the edge variant. -/
theorem c6_witness :
    authenticateToken none (fun _ => (none : Option SqlToken)) = AuthOut.reject 401 ∧
    authenticateToken (some "Bearer tok") (fun _ => (none : Option SqlToken))
      = AuthOut.reject 403 ∧
    requireAuth (some "Bearer tok") (fun _ => (none : Option String))
      = AuthOut.reject 401 := by
  refine ⟨c6_auth_statuses.1 _, ?_, ?_⟩
  · exact c6_auth_statuses.2.2.1 (some "Bearer tok") "tok" _ (by rfl) (by rfl)
  · exact c6_auth_statuses.2.2.2.2.2 (some "Bearer tok") "tok" _ (by rfl) (by rfl)

/- ===== C7 ===== -/

/-- C7 counterexample: login with a nonexistent email answers
`400 "User not found"` while login with a wrong password answers
`400 "Invalid password"` — equal status codes, but the messages distinguish
the two cases, refuting the non-distinguishing-message claim. -/
theorem c7_counterexample :
    login [⟨1, "n", "a@x", "pw", "user"⟩] (fun p h => p == h) "b@x" "whatever"
      = LoginOut.failure 400 "User not found" ∧
    login [⟨1, "n", "a@x", "pw", "user"⟩] (fun p h => p == h) "a@x" "wrong"
      = LoginOut.failure 400 "Invalid password" ∧
    ("User not found" : String) ≠ "Invalid password" := by
  exact ⟨rfl, rfl, by decide⟩

/-- C7 (amended): the two login failure cases return the SAME status code 400,
but with fixed distinct messages — "User not found" for an unknown email and
"Invalid password" for a hash mismatch — so an attacker can tell the cases
apart by the message even though the status matches. -/
theorem c7_login_failures :
    (∀ (users : List SqlUser) (check : String → String → Bool) (email password : String),
      users.find? (fun u => u.email == email) = none →
      login users check email password = LoginOut.failure 400 "User not found") ∧
    (∀ (users : List SqlUser) (check : String → String → Bool)
        (email password : String) (u : SqlUser),
      users.find? (fun v => v.email == email) = some u →
      check password u.passwordHash = false →
      login users check email password = LoginOut.failure 400 "Invalid password") ∧
    ("User not found" : String) ≠ "Invalid password" := by
  refine ⟨?_, ?_, by decide⟩
  · intro users check email password h
    unfold login
    rw [h]
  · intro users check email password u h hc
    unfold login
    rw [h]
    simp [hc]

/-- C7 witness: both failure branches at concrete inputs, with equal statuses
and differing messages. -/
theorem c7_witness :
    login [⟨1, "n", "a@x", "pw", "user"⟩] (fun p h => p == h) "c@x" "pw"
      = LoginOut.failure 400 "User not found" ∧
    login [⟨1, "n", "a@x", "pw", "user"⟩] (fun p h => p == h) "a@x" "nope"
      = LoginOut.failure 400 "Invalid password" := by
  constructor
  · exact c7_login_failures.1 _ _ "c@x" "pw" (by rfl)
  · exact c7_login_failures.2.1 [⟨1, "n", "a@x", "pw", "user"⟩] _ "a@x" "nope"
      ⟨1, "n", "a@x", "pw", "user"⟩ (by rfl) (by rfl)

/- ===== C5 ===== -/

theorem roleScope_nil (role : Option String) (uid : String) :
    roleScope role uid [] = [] := by
  unfold roleScope
  split <;> rfl

/-- C5: in both variants the dashboard response satisfies
`balance = totalIncomes - totalExpenses` exactly, where `totalExpenses` is the
sum of `amount` over all expense rows in scope (the role-scoped rows in the
edge variant, all rows in the SQL variant) and `totalIncomes` likewise; on the
empty dataset the balance is 0. -/
theorem c5_dashboard_balance :
    (∀ (role : Option String) (uid : String) (expenses incomes : List EdgeTxn)
        (nowMonth : Int),
      (edgeDashboard role uid expenses incomes nowMonth).balance
        = (edgeDashboard role uid expenses incomes nowMonth).totalIncomes
          - (edgeDashboard role uid expenses incomes nowMonth).totalExpenses ∧
      (edgeDashboard role uid expenses incomes nowMonth).totalExpenses
        = ((roleScope role uid expenses).map (fun t => t.amount)).sum ∧
      (edgeDashboard role uid expenses incomes nowMonth).totalIncomes
        = ((roleScope role uid incomes).map (fun t => t.amount)).sum) ∧
    (∀ (role : Option String) (uid : String) (nowMonth : Int),
      (edgeDashboard role uid [] [] nowMonth).balance = 0) ∧
    (∀ (expenses : List SqlExpense) (incomes : List SqlIncome) (nowMonth : Int),
      (dashboardStats expenses incomes nowMonth).balance
        = (dashboardStats expenses incomes nowMonth).totalIncomes
          - (dashboardStats expenses incomes nowMonth).totalExpenses ∧
      (dashboardStats expenses incomes nowMonth).totalExpenses
        = (expenses.map (fun r => r.amount)).sum ∧
      (dashboardStats expenses incomes nowMonth).totalIncomes
        = (incomes.map (fun r => r.amount)).sum) ∧
    (∀ nowMonth : Int, (dashboardStats [] [] nowMonth).balance = 0) := by
  refine ⟨?_, ?_, ?_, ?_⟩
  · intro role uid expenses incomes nowMonth
    exact ⟨rfl, reduceAmount_eq_sum _, reduceAmount_eq_sum _⟩
  · intro role uid nowMonth
    show reduceAmount (roleScope role uid []) - reduceAmount (roleScope role uid []) = 0
    rw [roleScope_nil]
    norm_num
  · intro expenses incomes nowMonth
    exact ⟨rfl, reduceAmountE_eq_sum _, reduceAmountI_eq_sum _⟩
  · intro nowMonth
    show reduceAmountI [] - reduceAmountE [] = 0
    norm_num [reduceAmountI, reduceAmountE]

/- ===== C8 ===== -/

instance : IsTotal SqlProject (fun a b => b.startDate ≤ a.startDate) :=
  ⟨fun a b => le_total b.startDate a.startDate⟩

instance : IsTrans SqlProject (fun a b => b.startDate ≤ a.startDate) :=
  ⟨fun _ _ _ hab hbc => le_trans hbc hab⟩

/-- C8: for every page ≥ 1, the project listing returns at most `limit` rows,
each satisfying the role/search filter (search is substring matching over
name and description); the rows are sorted by start date descending and are
the contiguous slice starting at offset `(page-1)*limit` of a sorted
permutation of the filtered table; the returned total is the number of rows
matching the same filter with no limit or offset. -/
theorem c8_project_listing (tbl : List SqlProject) (caller : SqlCaller)
    (page limit : Nat) (search : String) (_hp : 1 ≤ page) :
    (getProjects tbl caller page limit search).1.length ≤ limit ∧
    (∀ r ∈ (getProjects tbl caller page limit search).1,
      projectMatches caller search r = true) ∧
    List.Pairwise (fun a b => b.startDate ≤ a.startDate)
      (getProjects tbl caller page limit search).1 ∧
    (getProjects tbl caller page limit search).2
      = (tbl.filter (projectMatches caller search)).length ∧
    ∃ sorted : List SqlProject,
      sorted.Perm (tbl.filter (projectMatches caller search)) ∧
      List.Pairwise (fun a b => b.startDate ≤ a.startDate) sorted ∧
      (getProjects tbl caller page limit search).1
        = (sorted.drop ((page - 1) * limit)).take limit := by
  have hsorted : List.Pairwise (fun a b : SqlProject => b.startDate ≤ a.startDate)
      (List.insertionSort (fun a b : SqlProject => b.startDate ≤ a.startDate)
        (tbl.filter (projectMatches caller search))) :=
    List.sorted_insertionSort _ _
  have hperm : (List.insertionSort (fun a b : SqlProject => b.startDate ≤ a.startDate)
      (tbl.filter (projectMatches caller search))).Perm
        (tbl.filter (projectMatches caller search)) :=
    List.perm_insertionSort _ _
  have hsub : List.Sublist
      (((List.insertionSort (fun a b : SqlProject => b.startDate ≤ a.startDate)
        (tbl.filter (projectMatches caller search))).drop ((page - 1) * limit)).take limit)
      (List.insertionSort (fun a b : SqlProject => b.startDate ≤ a.startDate)
        (tbl.filter (projectMatches caller search))) :=
    List.Sublist.trans (List.take_sublist _ _) (List.drop_sublist _ _)
  refine ⟨List.length_take_le _ _, ?_, ?_, rfl, ?_⟩
  · intro r hr
    have hmemS := hsub.subset hr
    have hmemF := hperm.mem_iff.mp hmemS
    exact (List.mem_filter.mp hmemF).2
  · exact List.Pairwise.sublist hsub hsorted
  · exact ⟨List.insertionSort (fun a b : SqlProject => b.startDate ≤ a.startDate)
      (tbl.filter (projectMatches caller search)), hperm, hsorted, rfl⟩

/-- C8 witness: a concrete two-project table for caller 1, page 1, limit 10,
empty search — applying the listing theorem. -/
theorem c8_witness :
    (getProjects [⟨1, "alpha", "d1", 3, some 1⟩, ⟨2, "beta", "d2", 9, some 1⟩]
      ⟨1, "user"⟩ 1 10 "").1.length ≤ 10 ∧
    (getProjects [⟨1, "alpha", "d1", 3, some 1⟩, ⟨2, "beta", "d2", 9, some 1⟩]
      ⟨1, "user"⟩ 1 10 "").2 = 2 := by
  have h := c8_project_listing
    [⟨1, "alpha", "d1", 3, some 1⟩, ⟨2, "beta", "d2", 9, some 1⟩]
    ⟨1, "user"⟩ 1 10 "" (by decide)
  refine ⟨h.1, ?_⟩
  rw [h.2.2.2.1]
  rfl

/- ===== C4 ===== -/

theorem monthSumQ_expenseTriples (rows : List SqlExpense) (t : Int) :
    monthSumQ (expenseTriples rows) t
      = ((rows.filter (fun r => r.dateMonth == t)).map (fun r => r.amount)).sum := by
  unfold monthSumQ expenseTriples
  rw [List.filter_map, List.map_map]
  rfl

theorem monthSumQ_incomeTriples (rows : List SqlIncome) (t : Int) :
    monthSumQ (incomeTriples rows) t
      = ((rows.filter (fun r => r.dateMonth == t)).map (fun r => r.amount)).sum := by
  unfold monthSumQ incomeTriples
  rw [List.filter_map, List.map_map]
  rfl

theorem window_month_bounds (rows : List (Int × Int × ℚ)) (m d : Int)
    (hle : ∀ r ∈ rows, r.1 ≤ m) :
    ∀ r ∈ trendWindow rows (m, d), m - 6 ≤ r.1 ∧ r.1 ≤ m := by
  intro r hr
  obtain ⟨hmem, hf⟩ := List.mem_filter.mp hr
  refine ⟨?_, hle r hmem⟩
  unfold dateGeB at hf
  simp only [Bool.or_eq_true, Bool.and_eq_true, decide_eq_true_eq, beq_iff_eq] at hf
  omega

theorem find?_groups (ms : List Int) (f : Int → ℚ) (t : Int)
    (h : ∀ g ∈ ms, g.emod 12 = t.emod 12 → g = t) :
    ((ms.map (fun m => (m, f m))).find? (fun g => g.1.emod 12 == t.emod 12))
      = if t ∈ ms then some (t, f t) else none := by
  induction ms with
  | nil => simp
  | cons a l ih =>
    have htail : ∀ g ∈ l, g.emod 12 = t.emod 12 → g = t :=
      fun g hg => h g (List.mem_cons_of_mem a hg)
    by_cases hat : a = t
    · subst hat
      simp [List.find?]
    · have hpred : ((a.emod 12) == (t.emod 12)) = false := by
        cases hx : (a.emod 12) == (t.emod 12)
        · rfl
        · exact absurd (h a (List.mem_cons_self a l) (beq_iff_eq.mp hx)) hat
      have hmem : (t ∈ a :: l) = (t ∈ l) := by
        simp [List.mem_cons, Ne.symm hat]
      simp only [List.map_cons, List.find?, hpred, ih htail, hmem]

theorem trendLook_eq (rows : List (Int × Int × ℚ)) (m d t : Int)
    (hle : ∀ r ∈ rows, r.1 ≤ m) (ht1 : m - 5 ≤ t) (ht2 : t ≤ m) :
    trendLook (trendGroups (trendWindow rows (m, d))) t
      = monthSumQ (trendWindow rows (m, d)) t := by
  have hbounds : ∀ g ∈ List.insertionSort (fun a b => a ≤ b)
      (((trendWindow rows (m, d)).map (fun r => r.1)).dedup), m - 6 ≤ g ∧ g ≤ m := by
    intro g hg
    have hg2 : g ∈ ((trendWindow rows (m, d)).map (fun r => r.1)).dedup :=
      (List.perm_insertionSort _ _).mem_iff.mp hg
    have hg3 : g ∈ (trendWindow rows (m, d)).map (fun r => r.1) := List.mem_dedup.mp hg2
    obtain ⟨r, hr, hrg⟩ := List.mem_map.mp hg3
    have hb := window_month_bounds rows m d hle r hr
    omega
  have huniq : ∀ g ∈ List.insertionSort (fun a b => a ≤ b)
      (((trendWindow rows (m, d)).map (fun r => r.1)).dedup),
      g.emod 12 = t.emod 12 → g = t := by
    intro g hg he
    have hb := hbounds g hg
    have he2 : g % 12 = t % 12 := he
    omega
  unfold trendLook trendGroups
  rw [find?_groups _ _ _ huniq]
  by_cases hmem : t ∈ List.insertionSort (fun a b => a ≤ b)
      (((trendWindow rows (m, d)).map (fun r => r.1)).dedup)
  · simp [hmem]
  · have hnorow : ∀ r ∈ trendWindow rows (m, d), ¬(r.1 = t) := by
      intro r hr hrt
      apply hmem
      rw [(List.perm_insertionSort _ _).mem_iff]
      rw [List.mem_dedup]
      exact List.mem_map.mpr ⟨r, hr, hrt⟩
    have hfil : (trendWindow rows (m, d)).filter (fun r => r.1 == t) = [] := by
      rw [List.filter_eq_nil_iff]
      intro r hr
      simpa using hnorow r hr
    simp only [hmem, if_false]
    unfold monthSumQ
    rw [hfil]
    simp

theorem monthSumQ_window (rows : List (Int × Int × ℚ)) (m d t : Int)
    (ht1 : m - 5 ≤ t) :
    monthSumQ (trendWindow rows (m, d)) t = monthSumQ rows t := by
  unfold monthSumQ trendWindow
  rw [List.filter_filter]
  have hcong : ∀ r ∈ rows,
      ((r.1 == t) && dateGeB ((m, d).1 - 6, (m, d).2) (r.1, r.2.1)) = (r.1 == t) := by
    intro r _
    cases hx : (r.1 == t) with
    | false => simp
    | true =>
      have hrt : r.1 = t := beq_iff_eq.mp hx
      have hlt : m - 6 < r.1 := by omega
      simp [dateGeB, hlt]
  rw [List.filter_congr hcong]

/-- C4 counterexample: in the fixed-6 SQL variant, each of the six buckets the
endpoint returns serialises with keys `month`, `expenses`, `incomes` only —
no bucket carries a `balance` field — while the edge variant's bucket literal
does; so "each bucket is {month, expenses, incomes, balance}" fails on the
SQL variant. -/
theorem c4_counterexample :
    ((monthlyTrends [] [] (100, 15)).map
        (fun b => ((sqlBucketJson b).map (fun p => p.1)).contains "balance"))
      = [false, false, false, false, false, false] ∧
    ((edgeBucketJson ⟨0, 0, 0, 0⟩).map (fun p => p.1)).contains "balance" = true := by
  exact ⟨rfl, rfl⟩

/-- C4 (amended): the monthly-trends endpoints return exactly N buckets, one
per consecutive calendar month ending at the current month, oldest first,
with months lacking transactions reporting zero.  N is taken from the months
query parameter (default 12) in the edge variant, whose buckets are
`{month, expenses, incomes, balance}` with `balance = incomes - expenses`;
N is fixed at 6 in the SQL variant, whose buckets are
`{month, expenses, incomes}` WITHOUT a balance field, and whose month-name
matching is faithful to the stored data provided no transaction is dated
after the current month. -/
theorem c4_monthly_trends :
    (∀ (role : Option String) (uid : String) (E I : List EdgeTxn)
        (now : Int) (months : Nat),
      (edgeMonthlyTrends role uid E I now months).length = months ∧
      (∀ j : Nat, j < months →
        (edgeMonthlyTrends role uid E I now months)[j]?
          = some ⟨now - (months : Int) + 1 + (j : Int),
              monthTotal (roleScope role uid E) (now - (months : Int) + 1 + (j : Int)),
              monthTotal (roleScope role uid I) (now - (months : Int) + 1 + (j : Int)),
              monthTotal (roleScope role uid I) (now - (months : Int) + 1 + (j : Int))
                - monthTotal (roleScope role uid E) (now - (months : Int) + 1 + (j : Int))⟩)) ∧
    (∀ (txns : List EdgeTxn) (m : Int),
      (∀ t ∈ txns, t.month ≠ m) → monthTotal txns m = 0) ∧
    (∀ (txns : List EdgeTxn) (m : Int),
      monthTotal txns m
        = ((txns.filter (fun t => t.month == m)).map (fun t => t.amount)).sum) ∧
    (∀ (expRows : List SqlExpense) (incRows : List SqlIncome) (m d : Int),
      (∀ r ∈ expRows, r.dateMonth ≤ m) → (∀ r ∈ incRows, r.dateMonth ≤ m) →
      (monthlyTrends expRows incRows (m, d)).length = 6 ∧
      (∀ j : Nat, j < 6 →
        (monthlyTrends expRows incRows (m, d))[j]?
          = some ⟨(m - 5 + (j : Int)).emod 12,
              ((expRows.filter (fun r => r.dateMonth == m - 5 + (j : Int))).map
                (fun r => r.amount)).sum,
              ((incRows.filter (fun r => r.dateMonth == m - 5 + (j : Int))).map
                (fun r => r.amount)).sum⟩) ∧
      (∀ b ∈ monthlyTrends expRows incRows (m, d),
        (sqlBucketJson b).map (fun p => p.1) = ["month", "expenses", "incomes"])) ∧
    (∀ b : EdgeBucket,
      (edgeBucketJson b).map (fun p => p.1)
        = ["month", "expenses", "incomes", "balance"]) := by
  refine ⟨?_, ?_, ?_, ?_, ?_⟩
  · intro role uid E I now months
    constructor
    · show ((List.range months).map _).length = months
      rw [List.length_map, List.length_range]
    · intro j hj
      show (((List.range months).map _)[j]? : Option EdgeBucket) = _
      rw [List.getElem?_map, List.getElem?_range hj]
      rfl
  · exact monthTotal_of_empty_month
  · exact monthTotal_eq_sum
  · intro expRows incRows m d hexp hinc
    have hexp3 : ∀ r ∈ expenseTriples expRows, r.1 ≤ m := by
      intro r hr
      obtain ⟨x, hx, hxr⟩ := List.mem_map.mp hr
      rw [← hxr]
      exact hexp x hx
    have hinc3 : ∀ r ∈ incomeTriples incRows, r.1 ≤ m := by
      intro r hr
      obtain ⟨x, hx, hxr⟩ := List.mem_map.mp hr
      rw [← hxr]
      exact hinc x hx
    refine ⟨?_, ?_, ?_⟩
    · show ((List.range 6).map _).length = 6
      rw [List.length_map, List.length_range]
    · intro j hj
      have ht1 : m - 5 ≤ m - 5 + (j : Int) := by omega
      have ht2 : m - 5 + (j : Int) ≤ m := by omega
      have he := trendLook_eq (expenseTriples expRows) m d (m - 5 + (j : Int)) hexp3 ht1 ht2
      have hi := trendLook_eq (incomeTriples incRows) m d (m - 5 + (j : Int)) hinc3 ht1 ht2
      rw [monthSumQ_window _ m d _ ht1] at he
      rw [monthSumQ_window _ m d _ ht1] at hi
      rw [monthSumQ_expenseTriples] at he
      rw [monthSumQ_incomeTriples] at hi
      show (((List.range 6).map _)[j]? : Option SqlBucket) = _
      rw [List.getElem?_map, List.getElem?_range hj]
      rw [← he, ← hi]
      rfl
    · intro b _
      rfl
  · intro b
    rfl

/-- C4 witness: with a single expense of 50 in the current month (index 100),
the edge variant with months=3 yields 3 buckets whose middle (empty) month is
zero-filled, and the SQL variant yields 6 buckets whose last reports the 50
with zero incomes. -/
theorem c4_witness :
    (edgeMonthlyTrends none "u" [⟨"u", 100, 50⟩] [] 100 3).length = 3 ∧
    (edgeMonthlyTrends none "u" [⟨"u", 100, 50⟩] [] 100 3)[1]?
      = some ⟨99, 0, 0, 0⟩ ∧
    (edgeMonthlyTrends none "u" [⟨"u", 100, 50⟩] [] 100 3)[2]?
      = some ⟨100, 50, 0, -50⟩ ∧
    (monthlyTrends [⟨1, 100, 5, 50, "x", none, none, none, none⟩] [] (100, 15)).length = 6 ∧
    (monthlyTrends [⟨1, 100, 5, 50, "x", none, none, none, none⟩] [] (100, 15))[5]?
      = some ⟨4, 50, 0⟩ := by
  have hedge := c4_monthly_trends.1 none "u" [⟨"u", 100, 50⟩] [] 100 3
  have hsql := c4_monthly_trends.2.2.2.1
    [⟨1, 100, 5, 50, "x", none, none, none, none⟩] [] 100 15
    (by intro r hr; simp at hr; rw [hr]) (by intro r hr; simp at hr)
  refine ⟨hedge.1, ?_, ?_, hsql.1, ?_⟩
  · rw [hedge.2 1 (by decide)]
    simp only [Option.some.injEq, EdgeBucket.mk.injEq]
    norm_num [monthTotal, reduceAmount, roleScope, List.filter_cons, List.filter_nil,
      show ((100 : Int) == 99) = false from by decide,
      show ((none : Option String) == some "admin") = false from rfl]
  · rw [hedge.2 2 (by decide)]
    simp only [Option.some.injEq, EdgeBucket.mk.injEq]
    norm_num [monthTotal, reduceAmount, roleScope, List.filter_cons, List.filter_nil,
      show ((100 : Int) == 100) = true from by decide,
      show (("u" : String) == "u") = true from rfl,
      show ((none : Option String) == some "admin") = false from rfl]
  · rw [hsql.2.1 5 (by decide)]
    simp only [Option.some.injEq, SqlBucket.mk.injEq]
    norm_num [List.filter_cons, List.filter_nil,
      show ((100 : Int) == 100 - 5 + ((5 : Nat) : Int)) = true from by decide]
